import Mathlib

/-!
Verification of the hierarchy / view-materialization engine of the `graph`
repository against its design specification.

The Python sources are shallowly embedded below.  Strings are modelled by
Lean `String`, with the Python string operations (split, replace, lower,
title, strip, endswith, splitext) re-implemented over the underlying
character lists so that every definition evaluates by kernel reduction.
Filesystem state is modelled by an explicit `FS` value: a finite map from
file paths to their lines plus a list of directory paths.  Machine-level
concerns (bytes, encodings) play no role in the verified claims.

Definitions are translated from the sources in `src/`; the few places where
a definition is instead modelled from the specification (because the code it
embeds is referenced by the sources but not present under `src/`) carry a
doc comment starting with `Modelled from the spec:`.
-/

namespace Graph

/-! ## Python string primitives, embedded over character lists -/

/-- Splitting a character list on a separator, as Python `str.split(sep)`:
the result always has at least one (possibly empty) group. -/
def chSplit (sep : Char) : List Char → List (List Char)
  | [] => [[]]
  | c :: rest =>
    let r := chSplit sep rest
    if c = sep then [] :: r
    else
      match r with
      | [] => [[c]]
      | g :: gs => (c :: g) :: gs

/-- Python `s.split(sep)` for a one-character separator. -/
def pySplit (s : String) (sep : Char) : List String :=
  (chSplit sep s.data).map (fun cs => String.mk cs)

/-- Python `sep.join(parts)` for a one-character separator. -/
def joinSep (sep : Char) : List String → String
  | [] => ""
  | [x] => x
  | x :: y :: rest => x ++ String.mk [sep] ++ joinSep sep (y :: rest)

/-- Python `s.replace(a, b)` for one-character arguments. -/
def pyReplace (a b : Char) (s : String) : String :=
  String.mk (s.data.map (fun c => if c = a then b else c))

def pyLowerChar (c : Char) : Char :=
  if 'A' ≤ c ∧ c ≤ 'Z' then Char.ofNat (c.toNat + 32) else c

def pyUpperChar (c : Char) : Char :=
  if 'a' ≤ c ∧ c ≤ 'z' then Char.ofNat (c.toNat - 32) else c

def isAsciiAlpha (c : Char) : Bool :=
  ('a' ≤ c && c ≤ 'z') || ('A' ≤ c && c ≤ 'Z')

/-- Python `s.lower()` (ASCII fragment). -/
def pyLower (s : String) : String :=
  String.mk (s.data.map pyLowerChar)

def titleAux : Bool → List Char → List Char
  | _, [] => []
  | prevAlpha, c :: rest =>
    let c2 :=
      if isAsciiAlpha c then (if prevAlpha then pyLowerChar c else pyUpperChar c) else c
    c2 :: titleAux (isAsciiAlpha c) rest

/-- Python `s.title()` (ASCII fragment): the first letter of every run of
letters is uppercased, the rest lowercased. -/
def pyTitle (s : String) : String :=
  String.mk (titleAux false s.data)

def isPyWhitespace (c : Char) : Bool :=
  c = ' ' || c = '\t' || c = '\n' || c = '\r' || c = '\x0b' || c = '\x0c'

/-- Python `s.strip()` with no argument (ASCII whitespace fragment). -/
def pyStrip (s : String) : String :=
  String.mk (((s.data.dropWhile isPyWhitespace).reverse.dropWhile isPyWhitespace).reverse)

/-- Python `s.endswith(suffix)`. -/
def pyEndsWith (suffix : String) (s : String) : Bool :=
  decide (suffix.data.reverse <+: s.data.reverse)

/-- The stem `os.path.splitext(name)[0]` of a basename, following the CPython
rule: the split happens at the last dot, except that leading dots of the
name never start an extension (so `.md` has no extension and is its own
stem, while `.md.md` has stem `.md`). -/
def splitext_stem (s : String) : String :=
  let cs := s.data
  let afterRev := cs.reverse.takeWhile (fun c => c ≠ '.')
  if afterRev.length = cs.length then s
  else
    let root := cs.take (cs.length - afterRev.length - 1)
    if root.all (fun c => c = '.') then s else String.mk root

/-- Lexicographic comparison of character lists by code point, the order
Python `sorted` uses on strings. -/
def chLe : List Char → List Char → Bool
  | [], _ => true
  | _ :: _, [] => false
  | a :: as, b :: bs => if a < b then true else if a = b then chLe as bs else false

def strLeB (a b : String) : Bool := chLe a.data b.data

def insSorted (x : String) : List String → List String
  | [] => [x]
  | y :: ys => if strLeB x y then x :: y :: ys else y :: insSorted x ys

/-- Python `sorted` on a list of strings (an insertion sort; Python sorted
is stable and total, and only the resulting order matters here). -/
def pySorted : List String → List String
  | [] => []
  | x :: xs => insSorted x (pySorted xs)

/-- First-match association-list lookup: the behaviour of indexing a Python
dict whose insertion produced no duplicate keys. -/
def lookupKV {α : Type} [DecidableEq α] {β : Type} : List (α × β) → α → Option β
  | [], _ => Option.none
  | (k, v) :: rest, key => if k = key then some v else lookupKV rest key

theorem mem_insSorted (a x : String) (l : List String) :
    a ∈ insSorted x l ↔ a = x ∨ a ∈ l := by
  induction l with
  | nil => simp [insSorted]
  | cons y ys ih =>
    simp only [insSorted]
    by_cases h : strLeB x y = true
    · simp [h]
    · simp only [h, if_neg]
      simp [ih]
      tauto

theorem mem_pySorted (a : String) (l : List String) : a ∈ pySorted l ↔ a ∈ l := by
  induction l with
  | nil => simp [pySorted]
  | cons x xs ih => simp [pySorted, mem_insSorted, ih]

/-! ## Due-date classification (`HTMLGenerator._format_due_date`,
`src/src/html_generator.py` lines 70-102)

Calendar dates are mapped to integer day numbers by the standard civil
calendar algorithm; `datetime.now().date()` is abstracted as the integer day
number `todayN`, so that `(due_date - today).days` becomes an integer
difference. -/

def isLeapYear (y : Int) : Bool :=
  y % 4 = 0 && (y % 100 ≠ 0 || y % 400 = 0)

def daysInMonth (y m : Int) : Int :=
  if m = 2 then (if isLeapYear y then 29 else 28)
  else if m = 4 ∨ m = 6 ∨ m = 9 ∨ m = 11 then 30
  else 31

/-- Day number of a proleptic Gregorian date (days-from-civil algorithm). -/
def days_from_civil (y m d : Int) : Int :=
  let y2 := if m ≤ 2 then y - 1 else y
  let era := (if 0 ≤ y2 then y2 else y2 - 399) / 400
  let yoe := y2 - era * 400
  let mp := (m + 9) % 12
  let doy := (153 * mp + 2) / 5 + d - 1
  let doe := yoe * 365 + yoe / 4 - yoe / 100 + doy
  era * 146097 + doe - 719468

def digitVal (c : Char) : Option Nat :=
  if '0' ≤ c ∧ c ≤ '9' then some (c.toNat - 48) else Option.none

def parseNatDigits (cs : List Char) : Option Nat :=
  cs.foldl (fun acc c => acc.bind (fun n => (digitVal c).map (fun d => n * 10 + d)))
    (some 0)

/-- Embeds `datetime.strptime(value, PERCENT-Y-m-d).date()`: a 4-digit year,
a 1-2 digit month in 1..12 and a 1-2 digit day valid for that month and
year; any other string raises ValueError, embedded as `Option.none`. -/
def parse_due_date (s : String) : Option (Int × Int × Int) :=
  match pySplit s '-' with
  | [ys, ms, ds] =>
    if ys.data.length = 4 ∧ (1 ≤ ms.data.length ∧ ms.data.length ≤ 2)
        ∧ (1 ≤ ds.data.length ∧ ds.data.length ≤ 2) then
      match parseNatDigits ys.data, parseNatDigits ms.data, parseNatDigits ds.data with
      | some y, some m, some d =>
        if 1 ≤ m ∧ m ≤ 12 ∧ 1 ≤ d ∧ (d : Int) ≤ daysInMonth (y : Int) (m : Int) then
          some ((y : Int), (m : Int), (d : Int))
        else Option.none
      | _, _, _ => Option.none
    else Option.none
  | _ => Option.none

/-- The value of the `due` field as `_format_due_date` receives it: Python
`None`, a string, or a date object (YAML auto-converts ISO dates). -/
inductive DueValue where
  | noneVal : DueValue
  | str : String → DueValue
  | dateObj : (y m d : Int) → DueValue
deriving DecidableEq

/-- The four CSS classes `_format_due_date` can choose; the spec names them
overdue / today / this_week / this_month. -/
inductive DueBucket where
  | overdue : DueBucket
  | today : DueBucket
  | soon : DueBucket
  | later : DueBucket
deriving DecidableEq

/-- The `days_until` cascade of `_format_due_date`. -/
def classify_days (diff : Int) : DueBucket :=
  if diff < 0 then DueBucket.overdue
  else if diff = 0 then DueBucket.today
  else if diff ≤ 6 then DueBucket.soon
  else DueBucket.later

/-- `HTMLGenerator._format_due_date`: `Option.none` is the empty-string
return (falsy input, or a parse failure swallowed by the `except` clause);
`some b` is the span tagged with bucket `b`. -/
def format_due_date (v : DueValue) (todayN : Int) : Option DueBucket :=
  match v with
  | DueValue.noneVal => Option.none
  | DueValue.str s =>
    if s = "" then Option.none
    else
      match parse_due_date s with
      | some (y, m, d) => some (classify_days (days_from_civil y m d - todayN))
      | Option.none => Option.none
  | DueValue.dateObj y m d => some (classify_days (days_from_civil y m d - todayN))

/-! ## The YAML variant tree (`src/src/file_utils.py`)

The loaded `structure` mapping is modelled as an association list from keys
to items, each item carrying the optional metadata fields and a `children`
association list (a Python dict without a `children` key behaves exactly
like one with an empty dict there, since every access goes through
`.get('children', {})` or a caught `KeyError`). -/

structure Item where
  title : String
  id : String
  context : Option String
  due : Option String
  progress : Option Int
  children : List (String × Item)

/-- The value of the top-level `structure` key. -/
def YStructure : Type := List (String × Item)

/-- Resolution of a key path through nested `children` mappings; this is the
tree-level notion of a node being present in the loaded structure. -/
def resolvePath (kvs : List (String × Item)) : List String → Option Item
  | [] => Option.none
  | [p] => lookupKV kvs p
  | p :: q :: rest =>
    match lookupKV kvs p with
    | some it => resolvePath it.children (q :: rest)
    | Option.none => Option.none

/-- `FileUtils.get_item_by_id`: split the id on underscores and index the
first three levels of the structure; a `KeyError` is caught and turned into
`None`, and ids with more than three parts fall through to `return None`. -/
def get_item_by_id (st : YStructure) (itemId : String) : Option Item :=
  match pySplit itemId '_' with
  | [p0] => lookupKV st p0
  | [p0, p1] =>
    match lookupKV st p0 with
    | some it => lookupKV it.children p1
    | Option.none => Option.none
  | [p0, p1, p2] =>
    match lookupKV st p0 with
    | some it =>
      match lookupKV it.children p1 with
      | some it2 => lookupKV it2.children p2
      | Option.none => Option.none
    | Option.none => Option.none
  | _ => Option.none

/-- `FileUtils.item_exists`: the same three-level indexing with membership
tests; deeper ids fall through to `return False`. -/
def item_exists (st : YStructure) (itemId : String) : Bool :=
  match pySplit itemId '_' with
  | [p0] => (lookupKV st p0).isSome
  | [p0, p1] =>
    match lookupKV st p0 with
    | some it => (lookupKV it.children p1).isSome
    | Option.none => false
  | [p0, p1, p2] =>
    match lookupKV st p0 with
    | some it =>
      match lookupKV it.children p1 with
      | some it2 => (lookupKV it2.children p2).isSome
      | Option.none => false
    | Option.none => false
  | _ => false

mutual

/-- One step of `FileUtils.get_all_items.collect_items_recursive`: the item
itself (paired with its level) followed by its recursively collected
children. -/
def collectItem : Item → Nat → List (Item × Nat)
  | ⟨t, i, cx, du, pr, ch⟩, depth =>
    (⟨t, i, cx, du, pr, ch⟩, depth) :: collectChildren ch (depth + 1)
termination_by structural it => it

def collectChildren : List (String × Item) → Nat → List (Item × Nat)
  | [], _ => []
  | (_, it) :: rest, depth => collectItem it depth ++ collectChildren rest depth
termination_by structural kvs => kvs

end

/-- `FileUtils.get_all_items` on a loaded structure (supports unlimited
depth): every item of the tree paired with its level, in preorder. -/
def get_all_items (st : YStructure) : List (Item × Nat) :=
  collectChildren st 1

/-- Modelled from the spec: the YAML-variant page generator that dispatches
a requested starting id is referenced by `run.py` but not present under
`src/`; per section 4.2 of the spec, a starting id that does not resolve
falls back to materializing from the implicit root, and a resolved id
materializes its own node.  The lookup itself is the embedded
`FileUtils.get_item_by_id`. -/
def resolve_projection (st : YStructure) (startId : String) : List (String × Item) :=
  match get_item_by_id st startId with
  | some it => [(startId, it)]
  | Option.none => st

/-- The projection materialized from the implicit root: every top-level
node. -/
def root_projection (st : YStructure) : List (String × Item) := st

/-! ## Loading the YAML document (`FileUtils.load_yaml_structure` and
`FileUtils.get_all_items`, `src/src/file_utils.py` lines 22-30 and 161-176)

For the error analysis the parsed document is kept at the YAML value level:
a value is null, a scalar (string, number, boolean, date, or a sequence -
anything `.items()` fails on other than null), or a mapping. -/

inductive YVal where
  | null : YVal
  | scalar : String → YVal
  | ymap : List (String × YVal) → YVal

/-- The backing document as the `yaml.safe_load` call sees it: either the
text is not valid YAML, or it parses to a value. -/
inductive YSource where
  | unparseable : YSource
  | parsed : YVal → YSource

/-- The exceptions escaping `load_yaml_structure` / `get_all_items`:
`ValueError` re-raised on a `yaml.YAMLError`, `KeyError` from the missing
`structure` key, `TypeError` from subscripting or splatting a non-mapping,
and `AttributeError` from `.items()` on a non-mapping. -/
inductive LoadErr where
  | valueError : LoadErr
  | keyError : LoadErr
  | typeError : LoadErr
  | attrError : LoadErr
deriving DecidableEq

/-- `FileUtils.load_yaml_structure` (file present): a `yaml.YAMLError` is
re-raised as `ValueError`, otherwise the parsed document is returned with
no shape check at all. -/
def load_yaml_structure : YSource → Except LoadErr YVal
  | YSource.unparseable => Except.error LoadErr.valueError
  | YSource.parsed v => Except.ok v

/-- The subscript `structure['structure']`: `KeyError` on a mapping without
the key, `TypeError` on a non-mapping. -/
def subscriptStructure : YVal → Except LoadErr YVal
  | YVal.ymap kvs =>
    match lookupKV kvs "structure" with
    | some v => Except.ok v
    | Option.none => Except.error LoadErr.keyError
  | _ => Except.error LoadErr.typeError

mutual

/-- `collect_items_recursive(items_dict, ...)`: `.items()` on a non-mapping
raises `AttributeError`. -/
def collect_items_recursive : YVal → Nat → Except LoadErr (List (YVal × Nat))
  | YVal.ymap kvs, depth => collectPairs kvs depth
  | _, _ => Except.error LoadErr.attrError
termination_by structural v => v

/-- The loop body: each value must be a mapping (the `{**item, ...}` splat
raises `TypeError` otherwise); the item is collected and, when it has a
`children` entry, that entry is recursed into before the remaining keys. -/
def collectPairs : List (String × YVal) → Nat → Except LoadErr (List (YVal × Nat))
  | [], _ => Except.ok []
  | (_, YVal.ymap ikvs) :: rest, depth =>
    match findChildren ikvs depth with
    | Except.ok childItems =>
      match collectPairs rest depth with
      | Except.ok restItems => Except.ok ((YVal.ymap ikvs, depth) :: childItems ++ restItems)
      | Except.error e => Except.error e
    | Except.error e => Except.error e
  | (_, _) :: _, _ => Except.error LoadErr.typeError
termination_by structural kvs => kvs

/-- `if 'children' in item: collect_items_recursive(item['children'], ...)`:
recurse into the first `children` entry, if any. -/
def findChildren : List (String × YVal) → Nat → Except LoadErr (List (YVal × Nat))
  | [], _ => Except.ok []
  | (k, v) :: rest, depth =>
    if k = "children" then collect_items_recursive v (depth + 1)
    else findChildren rest depth
termination_by structural kvs => kvs

end

/-- `FileUtils.get_all_items` on a backing document: load, take the
`structure` key, collect recursively. -/
def get_all_items_src (src : YSource) : Except LoadErr (List (YVal × Nat)) :=
  match load_yaml_structure src with
  | Except.ok v =>
    match subscriptStructure v with
    | Except.ok sv => collect_items_recursive sv 1
    | Except.error e => Except.error e
  | Except.error e => Except.error e

mutual

/-- Well-formedness of the value under the `structure` key, following the
words of the spec: a mapping of nodes whose `children` entries are again
such mappings, at any depth. -/
def wellFormedForest : YVal → Bool
  | YVal.ymap kvs => wellFormedPairs kvs
  | _ => false
termination_by structural v => v

def wellFormedPairs : List (String × YVal) → Bool
  | [] => true
  | (_, YVal.ymap ikvs) :: rest => wellFormedChildren ikvs && wellFormedPairs rest
  | (_, _) :: _ => false
termination_by structural kvs => kvs

def wellFormedChildren : List (String × YVal) → Bool
  | [] => true
  | (k, v) :: rest => if k = "children" then wellFormedForest v else wellFormedChildren rest
termination_by structural kvs => kvs

end

/-- A loadable document, following the words of the spec: it parses, carries
the top-level `structure` key, and the structure subtree is a well-formed
forest of node mappings. -/
def goodYamlSource : YSource → Bool
  | YSource.unparseable => false
  | YSource.parsed v =>
    match v with
    | YVal.ymap kvs =>
      match lookupKV kvs "structure" with
      | some sv => wellFormedForest sv
      | Option.none => false
    | _ => false

def exceptOk {ε α : Type} : Except ε α → Bool
  | Except.ok _ => true
  | Except.error _ => false

mutual

theorem collect_ok_iff : ∀ (v : YVal) (d : Nat),
    exceptOk (collect_items_recursive v d) = wellFormedForest v
  | YVal.null, _ => rfl
  | YVal.scalar _, _ => rfl
  | YVal.ymap kvs, d => by
    simpa [collect_items_recursive, wellFormedForest] using collectPairs_ok_iff kvs d
termination_by structural v _ => v

theorem collectPairs_ok_iff : ∀ (kvs : List (String × YVal)) (d : Nat),
    exceptOk (collectPairs kvs d) = wellFormedPairs kvs
  | [], _ => rfl
  | (_, YVal.null) :: _, _ => rfl
  | (_, YVal.scalar _) :: _, _ => rfl
  | (k, YVal.ymap ikvs) :: rest, d => by
    have h1 := findChildren_ok_iff ikvs d
    have h2 := collectPairs_ok_iff rest d
    simp only [collectPairs, wellFormedPairs]
    cases hf : findChildren ikvs d with
    | error e =>
      rw [hf] at h1
      simp only [exceptOk] at h1 ⊢
      rw [← h1]
      simp
    | ok l =>
      rw [hf] at h1
      simp only [exceptOk] at h1
      cases hr : collectPairs rest d with
      | error e2 =>
        rw [hr] at h2
        simp only [exceptOk] at h2 ⊢
        rw [← h1, ← h2]
        simp
      | ok l2 =>
        rw [hr] at h2
        simp only [exceptOk] at h2 ⊢
        rw [← h1, ← h2]
        simp
termination_by structural kvs _ => kvs

theorem findChildren_ok_iff : ∀ (kvs : List (String × YVal)) (d : Nat),
    exceptOk (findChildren kvs d) = wellFormedChildren kvs
  | [], _ => rfl
  | (k, v) :: rest, d => by
    simp only [findChildren, wellFormedChildren]
    by_cases hk : k = "children"
    · simp only [hk, if_pos rfl]
      exact collect_ok_iff v (d + 1)
    · simp only [if_neg hk]
      exact findChildren_ok_iff rest d
termination_by structural kvs _ => kvs

end

/-- C4 (corrected): loading succeeds exactly on the documents that parse to
a mapping carrying the `structure` key whose subtree is a well-formed
forest of node mappings; equivalently, a malformed-source error is raised
in exactly three shapes of backing document, not two - unparseable text,
missing `structure` key, or a non-mapping value at the structure, node or
children position. -/
theorem c4_load_error_characterized (src : YSource) :
    exceptOk (get_all_items_src src) = goodYamlSource src := by
  cases src with
  | unparseable => rfl
  | parsed v =>
    cases v with
    | null => rfl
    | scalar s => rfl
    | ymap kvs =>
      simp only [get_all_items_src, load_yaml_structure, subscriptStructure, goodYamlSource]
      cases h : lookupKV kvs "structure" with
      | none => rfl
      | some sv => exact collect_ok_iff sv 1

/-- A parseable document whose top-level `structure` key is present but maps
to a scalar. -/
def c4_badDoc : YSource := YSource.parsed (YVal.ymap [("structure", YVal.scalar "x")])

/-- C4 counterexample: `c4_badDoc` is parsed successfully and carries the
top-level `structure` key - neither of the two cases the claim allows - yet
loading it raises (an `AttributeError` from `.items()` on the scalar), so
the claim that the load errors in exactly those two cases is false. -/
theorem c4_cex :
    load_yaml_structure c4_badDoc = Except.ok (YVal.ymap [("structure", YVal.scalar "x")])
    ∧ subscriptStructure (YVal.ymap [("structure", YVal.scalar "x")]) = Except.ok (YVal.scalar "x")
    ∧ get_all_items_src c4_badDoc = Except.error LoadErr.attrError :=
  ⟨rfl, rfl, rfl⟩

/-! ## Claim C1: due-date buckets -/

theorem classify_days_spec (diff : Int) :
    (classify_days diff = DueBucket.overdue ↔ diff < 0)
    ∧ (classify_days diff = DueBucket.today ↔ diff = 0)
    ∧ (classify_days diff = DueBucket.soon ↔ 1 ≤ diff ∧ diff ≤ 6)
    ∧ (classify_days diff = DueBucket.later ↔ 7 ≤ diff) := by
  unfold classify_days
  split_ifs <;> simp_all <;> omega

/-- C1 (corrected): a parseable due date always lands in exactly one bucket,
the first three buckets match the claimed ranges (strictly before today,
equal to today, 1-6 days out), but the fourth bucket covers every date 7 or
more days out with no 30-day cap, so a date more than 30 days out is
classified `later` rather than excluded; a falsy or unparseable due value
yields no bucket and no error. -/
theorem c1_bucket_ranges (y m d t : Int) :
    (format_due_date (DueValue.dateObj y m d) t).isSome = true
    ∧ (format_due_date (DueValue.dateObj y m d) t = some DueBucket.overdue
        ↔ days_from_civil y m d - t < 0)
    ∧ (format_due_date (DueValue.dateObj y m d) t = some DueBucket.today
        ↔ days_from_civil y m d - t = 0)
    ∧ (format_due_date (DueValue.dateObj y m d) t = some DueBucket.soon
        ↔ 1 ≤ days_from_civil y m d - t ∧ days_from_civil y m d - t ≤ 6)
    ∧ (format_due_date (DueValue.dateObj y m d) t = some DueBucket.later
        ↔ 7 ≤ days_from_civil y m d - t)
    ∧ format_due_date DueValue.noneVal t = Option.none
    ∧ (∀ s : String, parse_due_date s = Option.none →
        format_due_date (DueValue.str s) t = Option.none)
    ∧ (∀ (s : String) (y2 m2 d2 : Int), parse_due_date s = some (y2, m2, d2) →
        format_due_date (DueValue.str s) t = format_due_date (DueValue.dateObj y2 m2 d2) t) := by
  have h := classify_days_spec (days_from_civil y m d - t)
  refine ⟨rfl, ?_, ?_, ?_, ?_, rfl, ?_, ?_⟩
  · simpa [format_due_date] using h.1
  · simpa [format_due_date] using h.2.1
  · simpa [format_due_date] using h.2.2.1
  · simpa [format_due_date] using h.2.2.2
  · intro s hs
    by_cases he : s = ""
    · simp [format_due_date, he]
    · simp [format_due_date, he, hs]
  · intro s y2 m2 d2 hs
    by_cases he : s = ""
    · rw [he, show parse_due_date "" = Option.none from rfl] at hs
      simp at hs
    · simp [format_due_date, he, hs]

theorem c1_bucket_ranges_witness :
    format_due_date (DueValue.str "not-a-date") 0 = Option.none
    ∧ format_due_date (DueValue.str "2026-01-05") 0
        = format_due_date (DueValue.dateObj 2026 1 5) 0 :=
  ⟨(c1_bucket_ranges 0 0 0 0).2.2.2.2.2.2.1 "not-a-date" (by decide),
   (c1_bucket_ranges 0 0 0 0).2.2.2.2.2.2.2 "2026-01-05" 2026 1 5 (by decide)⟩

/-- C1 counterexample: a node due 31 days after today (2026-02-01 against a
current date of 2026-01-01) is put in the fourth bucket by
`_format_due_date`, while the claim says a node due more than 30 days out
appears in no bucket. -/
theorem c1_cex :
    days_from_civil 2026 2 1 - days_from_civil 2026 1 1 = 31
    ∧ format_due_date (DueValue.dateObj 2026 2 1) (days_from_civil 2026 1 1)
        = some DueBucket.later := by
  constructor
  · decide
  · decide

/-! ## Claim C3: unknown starting id falls back to the root projection -/

theorem get_item_by_id_none_of_unresolved (st : YStructure) (itemId : String)
    (h : resolvePath st (pySplit itemId '_') = Option.none) :
    get_item_by_id st itemId = Option.none := by
  rcases hp : pySplit itemId '_' with _ | ⟨p0, _ | ⟨p1, _ | ⟨p2, _ | ⟨p3, rest⟩⟩⟩⟩ <;>
      rw [hp] at h <;> simp only [get_item_by_id, hp]
  · exact h
  · simp only [resolvePath] at h
    cases hk : lookupKV st p0 with
    | none => rfl
    | some it =>
      rw [hk] at h
      simpa [resolvePath] using h
  · simp only [resolvePath] at h
    cases hk : lookupKV st p0 with
    | none => rfl
    | some it =>
      rw [hk] at h
      simp only [resolvePath] at h
      cases hk2 : lookupKV it.children p1 with
      | none => simp [hk2]
      | some it2 =>
        rw [hk2] at h
        simp only [resolvePath] at h
        simp [hk2, h]

/-- C3 (confirmed): when the starting id resolves to no node of the tree at
any supported depth, the page resolver materializes the projection from the
implicit root instead of failing; `get_item_by_id` returns `None` for such
ids (all exceptions are caught) and the dispatch - modelled from the spec,
since the YAML page generator is not under `src/` - shows everything. -/
theorem c3_unknown_id_falls_back (st : YStructure) (startId : String)
    (h : resolvePath st (pySplit startId '_') = Option.none) :
    resolve_projection st startId = root_projection st := by
  unfold resolve_projection root_projection
  rw [get_item_by_id_none_of_unresolved st startId h]

def mkItem (title id : String) (children : List (String × Item)) : Item :=
  ⟨title, id, Option.none, Option.none, Option.none, children⟩

def st_c3 : YStructure := [("body", mkItem "Body" "body" [])]

theorem c3_unknown_id_falls_back_witness :
    resolve_projection st_c3 "zzz" = root_projection st_c3 :=
  c3_unknown_id_falls_back st_c3 "zzz" rfl

/-! ## Claim C5: unlimited nesting depth versus id lookup -/

theorem collectItem_eq (it : Item) (d : Nat) :
    collectItem it d = (it, d) :: collectChildren it.children (d + 1) := by
  cases it
  rfl

theorem mem_collectChildren_of_lookup (kvs : List (String × Item)) (k : String)
    (it : Item) (d : Nat) (h : lookupKV kvs k = some it) :
    (it, d) ∈ collectChildren kvs d := by
  induction kvs with
  | nil => simp [lookupKV] at h
  | cons kv rest ih =>
    obtain ⟨k0, v0⟩ := kv
    simp only [lookupKV] at h
    by_cases hk : k0 = k
    · rw [if_pos hk] at h
      obtain rfl : v0 = it := by simpa using h
      simp [collectChildren, collectItem_eq]
    · rw [if_neg hk] at h
      simp only [collectChildren]
      exact List.mem_append_right _ (ih h)

theorem mem_collectChildren_of_mem_collectItem (kvs : List (String × Item))
    (k : String) (it : Item) (d : Nat) (x : Item × Nat)
    (h : lookupKV kvs k = some it) (hx : x ∈ collectItem it d) :
    x ∈ collectChildren kvs d := by
  induction kvs with
  | nil => simp [lookupKV] at h
  | cons kv rest ih =>
    obtain ⟨k0, v0⟩ := kv
    simp only [lookupKV] at h
    by_cases hk : k0 = k
    · rw [if_pos hk] at h
      obtain rfl : v0 = it := by simpa using h
      simp only [collectChildren]
      exact List.mem_append_left _ hx
    · rw [if_neg hk] at h
      simp only [collectChildren]
      exact List.mem_append_right _ (ih h)

theorem resolved_mem_collect : ∀ (parts : List String) (kvs : List (String × Item))
    (it : Item) (d : Nat), resolvePath kvs parts = some it →
    ∃ d2, (it, d2) ∈ collectChildren kvs d
  | [], _, _, _, h => by simp [resolvePath] at h
  | [p], kvs, it, d, h => ⟨d, mem_collectChildren_of_lookup kvs p it d h⟩
  | p :: q :: rest, kvs, it, d, h => by
    simp only [resolvePath] at h
    cases hk : lookupKV kvs p with
    | none => rw [hk] at h; exact absurd h (by simp)
    | some i =>
      rw [hk] at h
      obtain ⟨d2, hm⟩ := resolved_mem_collect (q :: rest) i.children it (d + 1) h
      refine ⟨d2, mem_collectChildren_of_mem_collectItem kvs p i d _ hk ?_⟩
      rw [collectItem_eq]
      exact List.mem_cons_of_mem _ hm

/-- C5 (corrected): the all-items traversal indeed enumerates every node of
the loaded structure at any nesting depth, but existence-check and lookup
by id succeed only for nodes at depth at most 3 (ids of at most three
underscore-separated parts); deeper nodes are enumerated yet unaddressable
by id. -/
theorem c5_depth :
    (∀ (st : YStructure) (parts : List String) (it : Item),
      resolvePath st parts = some it → it ∈ (get_all_items st).map Prod.fst)
    ∧ (∀ (st : YStructure) (itemId : String) (it : Item),
      (pySplit itemId '_').length ≤ 3 →
      resolvePath st (pySplit itemId '_') = some it →
      get_item_by_id st itemId = some it ∧ item_exists st itemId = true) := by
  constructor
  · intro st parts it h
    obtain ⟨d2, hm⟩ := resolved_mem_collect parts st it 1 h
    exact List.mem_map_of_mem Prod.fst hm
  · intro st itemId it hlen h
    rcases hp : pySplit itemId '_' with _ | ⟨p0, _ | ⟨p1, _ | ⟨p2, _ | ⟨p3, rest⟩⟩⟩⟩ <;>
        rw [hp] at h <;> simp only [get_item_by_id, item_exists, hp]
    · simp [resolvePath] at h
    · simp only [resolvePath] at h
      exact ⟨h, by simp [h]⟩
    · simp only [resolvePath] at h
      cases hk : lookupKV st p0 with
      | none => rw [hk] at h; simp at h
      | some i =>
        rw [hk] at h
        simp only [resolvePath] at h
        exact ⟨h, by simp [h]⟩
    · simp only [resolvePath] at h
      cases hk : lookupKV st p0 with
      | none => rw [hk] at h; simp at h
      | some i =>
        rw [hk] at h
        simp only [resolvePath] at h
        cases hk2 : lookupKV i.children p1 with
        | none => rw [hk2] at h; simp at h
        | some i2 =>
          rw [hk2] at h
          simp only [resolvePath] at h
          constructor
          · simp [hk2, h]
          · simp [hk2, h]
    · rw [hp] at hlen
      simp at hlen

def item_d : Item := mkItem "D" "a_b_c_d" []
def item_c : Item := mkItem "C" "a_b_c" [("d", item_d)]
def item_b : Item := mkItem "B" "a_b" [("c", item_c)]
def item_a : Item := mkItem "A" "a" [("b", item_b)]

def st_c5 : YStructure := [("a", item_a)]

/-- C5 counterexample: in a four-level structure the traversal enumerates
all four nodes (with their depths), and the depth-4 node resolves as a tree
path, yet `item_exists` is false and `get_item_by_id` is `None` for its id,
refuting the claim that lookup succeeds for every enumerated node. -/
theorem c5_cex :
    (get_all_items st_c5).map (fun p => (p.1.id, p.2))
      = [("a", 1), ("a_b", 2), ("a_b_c", 3), ("a_b_c_d", 4)]
    ∧ resolvePath st_c5 ["a", "b", "c", "d"] = some item_d
    ∧ item_exists st_c5 "a_b_c_d" = false
    ∧ (get_item_by_id st_c5 "a_b_c_d").isNone = true :=
  ⟨rfl, rfl, rfl, rfl⟩

theorem c5_depth_witness :
    item_d ∈ (get_all_items st_c5).map Prod.fst
    ∧ (get_item_by_id st_c5 "a_b_c" = some item_c ∧ item_exists st_c5 "a_b_c" = true) :=
  ⟨c5_depth.1 st_c5 ["a", "b", "c", "d"] item_d rfl,
   c5_depth.2 st_c5 "a_b_c" item_c (by decide) rfl⟩

/-! ## The filesystem model (markdown variant)

Paths are component lists (`os.path.join` appends a component,
`os.path.dirname` drops the last, `os.path.basename` takes the last).  A
filesystem is a finite map from file paths to their text lines together
with the list of directory paths. -/

abbrev EPath : Type := List String

structure FS where
  files : List (EPath × List String)
  dirs : List EPath

def file_lines (fs : FS) (p : EPath) : Option (List String) :=
  lookupKV fs.files p

/-- `os.path.isdir`. -/
def is_dir (fs : FS) (p : EPath) : Bool :=
  decide (p ∈ fs.dirs)

/-- `os.path.exists`. -/
def path_exists (fs : FS) (p : EPath) : Bool :=
  (file_lines fs p).isSome || is_dir fs p

/-- `os.listdir`: the entry names directly inside a directory. -/
def listdir (fs : FS) (d : EPath) : List String :=
  ((fs.files.map Prod.fst) ++ fs.dirs).filterMap (fun p =>
    match p.reverse with
    | [] => Option.none
    | e :: restRev => if restRev.reverse = d then some e else Option.none)

def basename : EPath → String
  | [] => ""
  | p :: ps =>
    match (p :: ps).reverse with
    | [] => ""
    | e :: _ => e

def dirname (p : EPath) : EPath := p.dropLast

/-- `HierarchyBuilder._extract_headers_from_md` on the lines of a file: a
stripped line starting with `#`, longer than one character and whose second
character is not a space declares the (stripped) remainder as a child name;
empty names are dropped. -/
def extract_headers (lines : List String) : List String :=
  lines.filterMap (fun line =>
    let l := pyStrip line
    match l.data with
    | '#' :: c2 :: rest =>
      if c2 = ' ' then Option.none
      else
        let name := pyStrip (String.mk (c2 :: rest))
        if name = "" then Option.none else some name
    | _ => Option.none)

/-- The header extraction applied to a path: an unreadable or absent file
contributes no headers (the `except` clause returns an empty list). -/
def extract_headers_from_md (fs : FS) (p : EPath) : List String :=
  match file_lines fs p with
  | some ls => extract_headers ls
  | Option.none => []

/-! ### `HierarchyBuilder._scan_directory`
(`src/src/hierarchy_builder.py` lines 164-185) -/

/-- The second pass of `_scan_directory` and
`_get_subitems_from_filesystem`: append each directory entry not already
found, threading the found-set. -/
def dirs_pass (fs : FS) (scanPath : EPath) : List String → List String → List String
  | [], _ => []
  | e :: rest, found =>
    if is_dir fs (scanPath ++ [e]) ∧ e ∉ found then
      e :: dirs_pass fs scanPath rest (found ++ [e])
    else dirs_pass fs scanPath rest found

/-- `HierarchyBuilder._scan_directory`: collect the stems of `.md` entries,
then directories not shadowed by a like-named stem, and sort. -/
def scan_directory (fs : FS) (dirPath : EPath) : List String :=
  if path_exists fs dirPath ∧ is_dir fs dirPath then
    let entries := listdir fs dirPath
    let firstPass := entries.filterMap (fun e =>
      if pyEndsWith ".md" e then some (splitext_stem e) else Option.none)
    pySorted (firstPass ++ dirs_pass fs dirPath entries firstPass)
  else pySorted []

/-! ### `HierarchyBuilder._get_subitems_from_filesystem`
(`src/src/hierarchy_builder.py` lines 187-233) -/

/-- The `.md` pass of `_get_subitems_from_filesystem`: stems of `.md`
entries not already found, skipping the `data` stem inside the `data` root,
threading the found-set; returns the appended names and the final
found-set. -/
def md_pass (base : String) : List String → List String → List String × List String
  | [], found => ([], found)
  | e :: rest, found =>
    if pyEndsWith ".md" e then
      let name := splitext_stem e
      if base = "data" ∧ name = "data" then md_pass base rest found
      else if name ∈ found then md_pass base rest found
      else
        let pr := md_pass base rest (found ++ [name])
        (name :: pr.1, pr.2)
    else md_pass base rest found

/-- `HierarchyBuilder._get_subitems_from_filesystem`: header-declared names
from the markdown body first, then filesystem-discovered `.md` stems and
directories from the like-named subdirectory, deduplicated in that priority
order and sorted. -/
def get_subitems_from_filesystem (fs : FS) (filepath : EPath) : List String :=
  let base := splitext_stem (basename filepath)
  let dirPath := dirname filepath
  let scanPath := if base = "data" then dirPath else dirPath ++ [base]
  let mdHeaders :=
    if base = "data" then []
    else if path_exists fs filepath then extract_headers_from_md fs filepath else []
  if path_exists fs scanPath ∧ is_dir fs scanPath then
    let entries := listdir fs scanPath
    let pr := md_pass base entries mdHeaders
    pySorted (mdHeaders ++ pr.1 ++ dirs_pass fs scanPath entries pr.2)
  else pySorted mdHeaders

/-! ### Direct child-file resolution
(`src/src/hierarchy_builder.py` lines 380-437) -/

/-- `HierarchyBuilder._find_level2_file_direct`: look for `name.md` or
`name/name.md` under the subdirectory named after the level-1 file; note
there is no fallback to the headers of the level-1 file itself. -/
def find_level2_file_direct (fs : FS) (level1File : EPath) (level2Name : String) :
    Option EPath :=
  let base := splitext_stem (basename level1File)
  let subdir := dirname level1File ++ [base]
  if path_exists fs subdir ∧ is_dir fs subdir then
    let mdFile := subdir ++ [level2Name ++ ".md"]
    if path_exists fs mdFile then some mdFile
    else
      let nameDir := subdir ++ [level2Name]
      if path_exists fs nameDir ∧ is_dir fs nameDir then
        let innerMd := nameDir ++ [level2Name ++ ".md"]
        if path_exists fs innerMd then some innerMd else Option.none
      else Option.none
  else Option.none

/-- `HierarchyBuilder._find_level3_file_direct`: like the level-2 search but
with two extra cases - a directory with no inner `.md` file stands for the
item itself, and a name that appears among the headers of the level-2 file
resolves to that parent file. -/
def find_level3_file_direct (fs : FS) (level2File : EPath) (level3Name : String) :
    Option EPath :=
  let base := splitext_stem (basename level2File)
  let subdir := dirname level2File ++ [base]
  let fromSubdir :=
    if path_exists fs subdir ∧ is_dir fs subdir then
      let mdFile := subdir ++ [level3Name ++ ".md"]
      if path_exists fs mdFile then some mdFile
      else
        let nameDir := subdir ++ [level3Name]
        if path_exists fs nameDir ∧ is_dir fs nameDir then
          let innerMd := nameDir ++ [level3Name ++ ".md"]
          if path_exists fs innerMd then some innerMd else some nameDir
        else Option.none
    else Option.none
  match fromSubdir with
  | some p => some p
  | Option.none =>
    if path_exists fs level2File ∧ level3Name ∈ extract_headers_from_md fs level2File then
      some level2File
    else Option.none

/-! ### Markdown file discovery (`get_markdown_files_from_directories`,
`src/src/graph.py` lines 38-51) -/

def search_dirs : List EPath := [["..", "data"], ["..", "pdata"]]

/-- The `os.walk` harvest: every `.md` file strictly below the root (in a
consistent filesystem no path extends a file path, so walking an existing
non-directory yields nothing, as in Python). -/
def walk_md_files (fs : FS) (root : EPath) : List EPath :=
  fs.files.filterMap (fun pr =>
    if root.isPrefixOf pr.1 ∧ root.length < pr.1.length ∧ pyEndsWith ".md" (basename pr.1)
    then some pr.1 else Option.none)

/-- `get_markdown_files_from_directories`: for each configured root, when it
exists walk it for `.md` files, otherwise contribute nothing; the function
has no raise path at all. -/
def get_markdown_files_from_directories (fs : FS) : List EPath :=
  (search_dirs.map (fun d => if path_exists fs d then walk_md_files fs d else [])).flatten

/-! ## Claim C6: scanned child lists are sorted and duplicate-free -/

/-- A directory holding two ordinary files named `.md` and `.md.md`: both
end in `.md` and, by the CPython `splitext` leading-dot rule, both have
stem `.md`. -/
def fs_c6 : FS :=
  ⟨[(["data", "x", ".md"], []), (["data", "x", ".md.md"], [])], [["data", "x"]]⟩

/-- C6 (code bug): `_scan_directory` promises deduplicated child names
(docstring `avoiding duplicates`, and the spec requires each name at most
once), but its first pass appends `.md` stems without consulting the found
set, so the files `.md` and `.md.md` - whose stems collide - make the
returned list name `.md` twice. -/
theorem c6_duplicate_stems :
    scan_directory fs_c6 ["data", "x"] = [".md", ".md"]
    ∧ ¬ (scan_directory fs_c6 ["data", "x"]).Nodup := by
  constructor
  · decide
  · decide

/-! ## Claim C7: header-only children and their reference resolution -/

/-- C7 (corrected): a name declared only by a heading line of the parent
markdown file, with no like-named `.md` file or directory below the parent
subdirectory, is retained as a child of that node; at level 3 its reference
resolves to the parent file itself, but at level 2 the direct resolution
has no header fallback and yields no reference at all. -/
theorem c7_header_only_children (fs : FS) (f : EPath) (name : String)
    (hbase : splitext_stem (basename f) ≠ "data")
    (hex : path_exists fs f = true)
    (hmem : name ∈ extract_headers_from_md fs f)
    (hnomd : path_exists fs (dirname f ++ [splitext_stem (basename f)] ++ [name ++ ".md"]) = false)
    (hnodir : is_dir fs (dirname f ++ [splitext_stem (basename f)] ++ [name]) = false) :
    name ∈ get_subitems_from_filesystem fs f
    ∧ find_level2_file_direct fs f name = Option.none
    ∧ find_level3_file_direct fs f name = some f := by
  refine ⟨?_, ?_, ?_⟩
  · simp only [get_subitems_from_filesystem, if_neg hbase, hex, if_pos rfl]
    split_ifs with hg
    · rw [mem_pySorted]
      simp [hmem]
    · rw [mem_pySorted]
      simpa [hex] using hmem
  · simp only [find_level2_file_direct]
    split_ifs with hg h1 h2 <;> simp_all
  · simp only [find_level3_file_direct]
    split_ifs with hg h1 h2 <;> simp_all

/-- A parent file `data/w.md` whose body declares the header child `task`,
with no `data/w` directory at all. -/
def fs_c7 : FS := ⟨[(["data", "w.md"], ["#task"])], [["data"]]⟩

/-- C7 counterexample: the header-only child `task` of `data/w.md` is
retained, but its level-2 direct resolution returns `None` rather than the
parent file the claim promises at every level (the level-3 resolution does
return the parent file). -/
theorem c7_cex :
    get_subitems_from_filesystem fs_c7 ["data", "w.md"] = ["task"]
    ∧ find_level2_file_direct fs_c7 ["data", "w.md"] "task" = Option.none
    ∧ find_level3_file_direct fs_c7 ["data", "w.md"] "task" = some ["data", "w.md"] := by
  refine ⟨by decide, by decide, by decide⟩

theorem c7_header_only_children_witness :
    "task" ∈ get_subitems_from_filesystem fs_c7 ["data", "w.md"]
    ∧ find_level2_file_direct fs_c7 ["data", "w.md"] "task" = Option.none
    ∧ find_level3_file_direct fs_c7 ["data", "w.md"] "task" = some ["data", "w.md"] :=
  c7_header_only_children fs_c7 ["data", "w.md"] "task" (by decide) (by decide)
    (by decide) (by decide) (by decide)

/-! ## Claim C8: markdown discovery over the configured roots -/

/-- C8 (corrected): discovery proceeds over whichever configured roots
exist - every discovered file lies under an existing root, so an absent
root contributes zero files - and the function never raises at all: when
every configured root is absent it returns the empty list instead of
failing with a missing-root error. -/
theorem mem_walk_md_files (fs : FS) (root p : EPath) (h : p ∈ walk_md_files fs root) :
    root.isPrefixOf p = true := by
  simp only [walk_md_files, List.mem_filterMap] at h
  obtain ⟨pr, hpr, hcond⟩ := h
  by_cases hc : (root.isPrefixOf pr.1 = true ∧ root.length < pr.1.length
      ∧ pyEndsWith ".md" (basename pr.1) = true)
  · rw [if_pos hc] at hcond
    obtain rfl : pr.1 = p := by simpa using hcond
    exact hc.1
  · rw [if_neg hc] at hcond
    simp at hcond

theorem c8_discovery (fs : FS) :
    (∀ p : EPath, p ∈ get_markdown_files_from_directories fs →
      ∃ d, d ∈ search_dirs ∧ path_exists fs d = true ∧ d.isPrefixOf p = true)
    ∧ (path_exists fs ["..", "data"] = false → path_exists fs ["..", "pdata"] = false →
      get_markdown_files_from_directories fs = []) := by
  constructor
  · intro p hp
    simp only [get_markdown_files_from_directories, search_dirs, List.map_cons,
      List.map_nil] at hp
    rw [List.mem_flatten] at hp
    obtain ⟨l, hl, hpl⟩ := hp
    simp only [List.mem_cons, List.not_mem_nil, or_false] at hl
    rcases hl with rfl | rfl
    · split_ifs at hpl with hd
      · exact ⟨["..", "data"], by simp [search_dirs], hd, mem_walk_md_files fs _ p hpl⟩
      · simp at hpl
    · split_ifs at hpl with hd
      · exact ⟨["..", "pdata"], by simp [search_dirs], hd, mem_walk_md_files fs _ p hpl⟩
      · simp at hpl
  · intro h1 h2
    simp [get_markdown_files_from_directories, search_dirs, h1, h2]

def fs_c8 : FS := ⟨[(["other", "n.md"], [])], []⟩

/-- C8 counterexample: with both configured roots absent the discovery call
returns an empty list normally - no missing-root-directory error is raised
in the all-roots-absent case the claim reserves for failure. -/
theorem c8_cex :
    path_exists fs_c8 ["..", "data"] = false
    ∧ path_exists fs_c8 ["..", "pdata"] = false
    ∧ get_markdown_files_from_directories fs_c8 = [] :=
  ⟨rfl, rfl, rfl⟩

def fs_c8b : FS := ⟨[(["..", "data", "a.md"], [])], [["..", "data"]]⟩

theorem c8_discovery_witness :
    (∃ d, d ∈ search_dirs ∧ path_exists fs_c8b d = true
      ∧ d.isPrefixOf ["..", "data", "a.md"] = true)
    ∧ get_markdown_files_from_directories fs_c8 = [] :=
  ⟨(c8_discovery fs_c8b).1 ["..", "data", "a.md"] (by decide),
   (c8_discovery fs_c8).2 rfl rfl⟩

/-! ## Breadcrumbs

`get_parent_file_info_dynamic` (`src/graph.py` lines 561-594) walks up the
hierarchy by splitting the file base name on underscores.  The loop
re-splits the re-joined prefix at every step; since the components carry no
separator, that walk is the recursion on the reversed component list
embedded as `rwalk`. -/

abbrev Crumb : Type := String × Option String

def rwalk : List String → List Crumb
  | [] => []
  | lastP :: restRev =>
    let current := joinSep '_' ((lastP :: restRev).reverse)
    if current = "" ∨ current = "main" then []
    else
      (pyTitle (pyReplace '-' ' ' lastP), some (current ++ ".html")) ::
        (if restRev.isEmpty then [("Main", some "main.html")] else rwalk restRev)

/-- The in-place update `hierarchy_path[-1] = (name, None)` guarded by the
list being nonempty. -/
def set_last_none : List Crumb → List Crumb
  | [] => []
  | [c] => [(c.1, Option.none)]
  | c :: c2 :: rest => c :: set_last_none (c2 :: rest)

/-- `get_parent_file_info_dynamic`: breadcrumb for a file name, walked up
through underscore prefixes, reversed into root-first order, with the final
entry (the current file) made non-navigable. -/
def get_parent_file_info_dynamic (fileName : String) : List Crumb :=
  let base := splitext_stem fileName
  if base = "main" then [("Main", Option.none)]
  else
    let hp := (rwalk ((pySplit base '_').reverse)).reverse
    let hp2 := set_last_none hp
    if hp2.isEmpty then
      [("Main", some "main.html"), (pyTitle (pyReplace '_' ' ' base), Option.none)]
    else hp2

def bc_go (acc : List String) : List String → List Crumb
  | [] => []
  | part :: rest =>
    (pyTitle (pyReplace '-' ' ' part), some (joinSep '/' (acc ++ [part]) ++ ".html")) ::
      bc_go (acc ++ [part]) rest

/-- `HierarchyBuilder.get_breadcrumb_for_file` (`src/src/hierarchy_builder.py`
lines 15-31), taking the path components directly: the component extraction
goes through `FileUtils.get_path_components_from_file_path`, which is
invoked but not defined in `src/src/file_utils.py` and is modelled from the
spec as producing the relative path components of the file under its search
root.  An empty component list yields the single `Data` crumb; otherwise
the `Data` crumb is followed by one entry per component except the last. -/
def get_breadcrumb_for_file (pathParts : List String) : List Crumb :=
  if pathParts.isEmpty then [("Data", some "data.html")]
  else ("Data", some "data.html") :: bc_go [] pathParts.dropLast

theorem underscore_mem_joinSep (x y : String) (ys : List String) :
    '_' ∈ (joinSep '_' (x :: y :: ys)).data := by
  simp [joinSep, String.data_append]

theorem joinSep_cons2_ne (x y : String) (ys : List String) :
    joinSep '_' (x :: y :: ys) ≠ "" ∧ joinSep '_' (x :: y :: ys) ≠ "main" := by
  have h := underscore_mem_joinSep x y ys
  constructor <;> intro he <;> rw [he] at h
  · exact absurd h (by decide)
  · exact absurd h (by decide)

/-- C2 (corrected): the root id does not get an empty breadcrumb - the
filename-based resolver returns the single non-navigable `Main` entry and
the path-based resolver the single `Data` entry - and a depth-3 node gets
4 entries from the filename-based resolver (root plus both ancestors plus
the node itself as non-navigable terminus), while the path-based resolver
gives the 3 ancestor entries (root, level1, level2) without the node. -/
theorem c2_breadcrumbs (f a b c : String)
    (hsplit : pySplit (splitext_stem f) '_' = [a, b, c])
    (ha : a ≠ "") (ham : a ≠ "main") :
    get_parent_file_info_dynamic f
      = [("Main", some "main.html"),
         (pyTitle (pyReplace '-' ' ' a), some (a ++ ".html")),
         (pyTitle (pyReplace '-' ' ' b), some (a ++ "_" ++ b ++ ".html")),
         (pyTitle (pyReplace '-' ' ' c), Option.none)]
    ∧ get_breadcrumb_for_file [a, b, c]
      = [("Data", some "data.html"),
         (pyTitle (pyReplace '-' ' ' a), some (a ++ ".html")),
         (pyTitle (pyReplace '-' ' ' b), some (a ++ "/" ++ b ++ ".html"))]
    ∧ get_breadcrumb_for_file [] = [("Data", some "data.html")] := by
  have hbase : splitext_stem f ≠ "main" := by
    intro he
    rw [he] at hsplit
    have : pySplit "main" '_' = ["main"] := rfl
    rw [this] at hsplit
    simp at hsplit
  have h1 := joinSep_cons2_ne a b [c]
  have h2 := joinSep_cons2_ne a b []
  have e1 : a ++ "_" ++ (b ++ "_" ++ c) ≠ "" := h1.1
  have e2 : a ++ "_" ++ (b ++ "_" ++ c) ≠ "main" := h1.2
  have e3 : a ++ "_" ++ b ≠ "" := h2.1
  have e4 : a ++ "_" ++ b ≠ "main" := h2.2
  refine ⟨?_, rfl, rfl⟩
  simp only [get_parent_file_info_dynamic, if_neg hbase, hsplit]
  simp only [List.reverse_cons, List.reverse_nil, List.nil_append, List.cons_append,
    List.singleton_append]
  simp only [rwalk, List.reverse_cons, List.reverse_nil, List.nil_append,
    List.cons_append, List.singleton_append, List.isEmpty_cons, List.isEmpty_nil]
  simp only [joinSep]
  simp [e1, e2, e3, e4, ha, ham, set_last_none]

theorem c2_breadcrumbs_witness :
    get_parent_file_info_dynamic "body_habit_run.md"
      = [("Main", some "main.html"), ("Body", some "body.html"),
         ("Habit", some "body_habit.html"), ("Run", Option.none)]
    ∧ get_breadcrumb_for_file ["body", "habit", "run"]
      = [("Data", some "data.html"), ("Body", some "body.html"),
         ("Habit", some "body/habit.html")]
    ∧ get_breadcrumb_for_file [] = [("Data", some "data.html")] :=
  c2_breadcrumbs "body_habit_run.md" "body" "habit" "run" (by decide) (by decide) (by decide)

/-- C2 counterexample: the breadcrumb of the root id `main` is the single
entry `Main` with no link, not the empty sequence the claim states. -/
theorem c2_cex :
    get_parent_file_info_dynamic "main.md" = [("Main", Option.none)]
    ∧ get_parent_file_info_dynamic "main.md" ≠ [] := by
  constructor
  · decide
  · decide

/-! ## The structure exporter
(`StructureExporter._convert_to_structured_format`,
`src/src/structure_exporter.py` lines 40-99)

The input is the resolved markdown hierarchy (the `parse_md_hierarchy`
output shape); the output is the `structure` mapping of the exported
document.  The IO-dependent `metadata` block (title, version, timestamp)
sits beside `structure` and carries no tree content, so it is omitted. -/

inductive Layer3Item where
  | node : (name : String) → (filename : Option EPath) → (context : Option String) → Layer3Item
  | bare : (name : String) → Layer3Item

structure Layer2Item where
  name : String
  filename : Option EPath
  context : Option String
  layer3 : List Layer3Item

structure Layer1Item where
  layer1 : String
  layer1_filename : Option EPath
  layer1_context : Option String
  layer2 : List Layer2Item

abbrev HierarchyData : Type := List Layer1Item

/-- An exported node: `title`, synthesized `id`, source `file`, `context`
and the `children` mapping (empty at layer 3, where the Python dict simply
has no `children` key). -/
structure SNode where
  title : String
  id : String
  file : Option EPath
  context : Option String
  children : List (String × SNode)

abbrev Structured : Type := List (String × SNode)

/-- Assignment into a Python dict: an existing key keeps its position and
gets the new value, a new key is appended. -/
def dict_insert {β : Type} : List (String × β) → String → β → List (String × β)
  | [], k, v => [(k, v)]
  | (k0, v0) :: rest, k, v =>
    if k0 = k then (k0, v) :: rest else (k0, v0) :: dict_insert rest k v

/-- `StructureExporter._format_title`. -/
def format_title (name : String) : String :=
  pyTitle (pyReplace '-' ' ' (pyReplace '_' ' ' name))

def make_id1 (n1 : String) : String := pyReplace ' ' '_' (pyLower n1)

def make_id2 (n1 n2 : String) : String :=
  pyReplace ' ' '_' (pyLower n1 ++ "_" ++ pyLower n2)

def make_id3 (n1 n2 n3 : String) : String :=
  pyReplace ' ' '_' (pyLower n1 ++ "_" ++ pyLower n2 ++ "_" ++ pyLower n3)

def l3_name : Layer3Item → String
  | Layer3Item.node n _ _ => n
  | Layer3Item.bare n => n

def convert_l3 (n1 n2 : String) : Layer3Item → String × SNode
  | Layer3Item.node name file ctx =>
    (name, ⟨format_title name, make_id3 n1 n2 name, file, ctx, []⟩)
  | Layer3Item.bare name =>
    (name, ⟨format_title name, make_id3 n1 n2 name, Option.none, Option.none, []⟩)

def convert_children3 (n1 n2 : String) (l3s : List Layer3Item) : List (String × SNode) :=
  l3s.foldl (fun acc it => dict_insert acc (convert_l3 n1 n2 it).1 (convert_l3 n1 n2 it).2) []

def convert_l2 (n1 : String) (l2 : Layer2Item) : String × SNode :=
  (l2.name, ⟨format_title l2.name, make_id2 n1 l2.name, l2.filename, l2.context,
    convert_children3 n1 l2.name l2.layer3⟩)

def convert_children2 (l1 : Layer1Item) : List (String × SNode) :=
  l1.layer2.foldl
    (fun acc l2 => dict_insert acc (convert_l2 l1.layer1 l2).1 (convert_l2 l1.layer1 l2).2) []

def convert_l1 (l1 : Layer1Item) : String × SNode :=
  (l1.layer1, ⟨format_title l1.layer1, make_id1 l1.layer1, l1.layer1_filename,
    l1.layer1_context, convert_children2 l1⟩)

/-- `StructureExporter._convert_to_structured_format`, restricted to the
`structure` mapping it builds. -/
def convert_to_structured_format (h : HierarchyData) : Structured :=
  h.foldl (fun acc l1 => dict_insert acc (convert_l1 l1).1 (convert_l1 l1).2) []

/-- Modelled from the spec: `yaml.dump` followed by `yaml.safe_load` on the
exported mapping is the identity - the YAML serialization primitives are
out-of-core external collaborators (section 1 of the spec) - so re-loading
the export returns the converted structure unchanged. -/
def reload_exported (h : HierarchyData) : Structured :=
  convert_to_structured_format h

def zipAll {α β : Type} (p : α → β → Bool) : List α → List β → Bool
  | [], [] => true
  | x :: xs, y :: ys => p x y && zipAll p xs ys
  | _, _ => false

/-- Following the words of the spec: the reloaded entry for a layer-3 item
is keyed by the original name, keeps its file and context, and has no
children. -/
def skel3 (it : Layer3Item) (kv : String × SNode) : Bool :=
  match it with
  | Layer3Item.node name file ctx =>
    decide (kv.1 = name) && decide (kv.2.file = file) && decide (kv.2.context = ctx)
      && kv.2.children.isEmpty
  | Layer3Item.bare name =>
    decide (kv.1 = name) && decide (kv.2.file = Option.none) && decide (kv.2.context = Option.none)
      && kv.2.children.isEmpty

def skel2 (l2 : Layer2Item) (kv : String × SNode) : Bool :=
  decide (kv.1 = l2.name) && decide (kv.2.file = l2.filename)
    && decide (kv.2.context = l2.context) && zipAll skel3 l2.layer3 kv.2.children

def skel1 (l1 : Layer1Item) (kv : String × SNode) : Bool :=
  decide (kv.1 = l1.layer1) && decide (kv.2.file = l1.layer1_filename)
    && decide (kv.2.context = l1.layer1_context) && zipAll skel2 l1.layer2 kv.2.children

/-- Following the words of the spec: the reloaded tree has the same child
sets (keyed by the original names, in order) and the same file and context
values per node as the resolved tree. -/
def preserves_skeleton (h : HierarchyData) (s : Structured) : Bool :=
  zipAll skel1 h s

def names_ok2 (l2 : Layer2Item) : Bool :=
  decide (l2.layer3.map l3_name).Nodup

def names_ok1 (l1 : Layer1Item) : Bool :=
  decide ((l1.layer2.map Layer2Item.name).Nodup) && l1.layer2.all names_ok2

/-- Sibling names are pairwise distinct at every level (duplicate sibling
names would collide as dict keys). -/
def names_ok (h : HierarchyData) : Bool :=
  decide ((h.map Layer1Item.layer1).Nodup) && h.all names_ok1

theorem dict_insert_fresh {β : Type} (kvs : List (String × β)) (k : String) (v : β)
    (h : k ∉ kvs.map Prod.fst) : dict_insert kvs k v = kvs ++ [(k, v)] := by
  induction kvs with
  | nil => rfl
  | cons kv rest ih =>
    obtain ⟨k0, v0⟩ := kv
    simp only [List.map_cons, List.mem_cons] at h
    push_neg at h
    simp only [dict_insert]
    rw [if_neg (fun he => h.1 he.symm)]
    rw [ih h.2]
    simp

theorem foldl_dict_insert_eq_map {α β : Type} (f : α → String × β) (xs : List α)
    (acc : List (String × β))
    (hdisj : ∀ x ∈ xs, (f x).1 ∉ acc.map Prod.fst)
    (hnd : (xs.map (fun x => (f x).1)).Nodup) :
    xs.foldl (fun a x => dict_insert a (f x).1 (f x).2) acc = acc ++ xs.map f := by
  induction xs generalizing acc with
  | nil => simp
  | cons x xs ih =>
    simp only [List.foldl_cons]
    rw [dict_insert_fresh acc (f x).1 (f x).2 (hdisj x (List.mem_cons_self x xs))]
    simp only [List.map_cons, List.nodup_cons] at hnd
    rw [ih (acc ++ [((f x).1, (f x).2)])]
    · simp
    · intro y hy
      simp only [List.map_append, List.mem_append]
      push_neg
      refine ⟨hdisj y (List.mem_cons_of_mem x hy), ?_⟩
      simp only [List.map_cons, List.map_nil, List.mem_singleton]
      intro he
      exact hnd.1 (he ▸ List.mem_map_of_mem (fun z => (f z).1) hy)
    · exact hnd.2

theorem zipAll_skel3_map (n1 n2 : String) (l3s : List Layer3Item) :
    zipAll skel3 l3s (l3s.map (convert_l3 n1 n2)) = true := by
  induction l3s with
  | nil => rfl
  | cons it rest ih =>
    simp only [List.map_cons, zipAll, ih, Bool.and_true]
    cases it <;> simp [skel3, convert_l3]

theorem convert_l3_key (n1 n2 : String) (it : Layer3Item) :
    (convert_l3 n1 n2 it).1 = l3_name it := by
  cases it <;> rfl

theorem convert_children3_eq_map (n1 n2 : String) (l3s : List Layer3Item)
    (hnd : (l3s.map l3_name).Nodup) :
    convert_children3 n1 n2 l3s = l3s.map (convert_l3 n1 n2) := by
  unfold convert_children3
  rw [foldl_dict_insert_eq_map (convert_l3 n1 n2) l3s [] (by simp) ?_]
  · simp
  · simpa [convert_l3_key] using hnd

theorem skel2_convert (n1 : String) (l2 : Layer2Item) (h2 : names_ok2 l2 = true) :
    skel2 l2 (convert_l2 n1 l2) = true := by
  simp only [names_ok2, decide_eq_true_eq] at h2
  simp only [skel2, convert_l2, convert_children3_eq_map n1 l2.name l2.layer3 h2]
  simp [zipAll_skel3_map]

theorem convert_children2_eq_map (l1 : Layer1Item)
    (hnd : (l1.layer2.map Layer2Item.name).Nodup) :
    convert_children2 l1 = l1.layer2.map (convert_l2 l1.layer1) := by
  unfold convert_children2
  rw [foldl_dict_insert_eq_map (convert_l2 l1.layer1) l1.layer2 [] (by simp) ?_]
  · simp
  · simpa [convert_l2] using hnd

theorem zipAll_skel2_map (n1 : String) (l2s : List Layer2Item)
    (h : l2s.all names_ok2 = true) :
    zipAll skel2 l2s (l2s.map (convert_l2 n1)) = true := by
  induction l2s with
  | nil => rfl
  | cons l2 rest ih =>
    simp only [List.all_cons, Bool.and_eq_true] at h
    simp only [List.map_cons, zipAll, ih h.2, Bool.and_true]
    exact skel2_convert n1 l2 h.1

theorem skel1_convert (l1 : Layer1Item) (h1 : names_ok1 l1 = true) :
    skel1 l1 (convert_l1 l1) = true := by
  simp only [names_ok1, Bool.and_eq_true, decide_eq_true_eq] at h1
  simp only [skel1, convert_l1, convert_children2_eq_map l1 h1.1]
  simp [zipAll_skel2_map l1.layer1 l1.layer2 h1.2]

theorem convert_eq_map (h : HierarchyData) (hnd : (h.map Layer1Item.layer1).Nodup) :
    convert_to_structured_format h = h.map convert_l1 := by
  unfold convert_to_structured_format
  rw [foldl_dict_insert_eq_map convert_l1 h [] (by simp) ?_]
  · simp
  · simpa [convert_l1] using hnd

/-- C9 (corrected): re-loading the exported YAML returns the converted
structure unchanged (YAML dump/load being the identity on the exported
mapping), and that structure preserves the child sets - keyed by the
original names - and the per-node file and context values of the resolved
tree; but node titles are normalized display forms of the names
(underscores and hyphens to spaces, title-case) rather than the names
themselves, ids are freshly synthesized lowercase name paths, and no
due/progress values exist on either side of the round trip. -/
theorem c9_roundtrip (h : HierarchyData) (hnd : names_ok h = true) :
    reload_exported h = convert_to_structured_format h
    ∧ preserves_skeleton h (reload_exported h) = true := by
  refine ⟨rfl, ?_⟩
  simp only [names_ok, Bool.and_eq_true, decide_eq_true_eq] at hnd
  unfold preserves_skeleton reload_exported
  rw [convert_eq_map h hnd.1]
  have hall := hnd.2
  clear hnd
  induction h with
  | nil => rfl
  | cons l1 rest ih =>
    simp only [List.all_cons, Bool.and_eq_true] at hall
    simp only [List.map_cons, zipAll, ih hall.2, Bool.and_true]
    exact skel1_convert l1 hall.1

def h_c9 : HierarchyData := [⟨"go-melt", Option.none, Option.none, []⟩]

/-- C9 counterexample: a resolved node named `go-melt` comes back from the
export round trip titled `Go Melt` - the title is a normalized form of the
name, not the same display string, so the reloaded tree is not isomorphic
to the original under the claimed same-titles correspondence. -/
theorem c9_cex :
    (reload_exported h_c9).map (fun kv => (kv.1, kv.2.title, kv.2.id))
      = [("go-melt", "Go Melt", "go-melt")]
    ∧ "Go Melt" ≠ "go-melt" := by
  constructor
  · rfl
  · decide

def h_c9w : HierarchyData :=
  [⟨"body", Option.none, some "physical health", [⟨"habit", Option.none, Option.none,
    [Layer3Item.node "run" (some ["data", "body", "habit", "run.md"]) Option.none]⟩]⟩]

theorem c9_roundtrip_witness :
    preserves_skeleton h_c9w (reload_exported h_c9w) = true :=
  (c9_roundtrip h_c9w (by decide)).2

/-! ## Claim C10: FileUtils methods invoked by the other components

The method names defined on `FileUtils` in `src/src/file_utils.py`, and the
`self.file_utils` attribute accesses performed by
`HierarchyBuilder.build_hierarchy_from_files` and
`HTMLGenerator._build_layer1_section` (for an item carrying a non-empty
id), transcribed from the sources. -/

def file_utils_defined_methods : List String :=
  ["__init__",
   "normalize_path", "load_yaml_structure", "save_yaml_structure", "item_exists",
   "get_item_by_id", "update_item", "add_item", "remove_item", "get_all_items",
   "search_items", "ensure_html_directory_exists", "get_structure_metadata",
   "update_metadata"]

def file_utils_methods_invoked : List String :=
  ["is_leaf_node", "get_markdown_files_from_directories",
   "get_path_components_from_file_path", "extract_context_from_md"]

/-- Python attribute lookup on a `FileUtils` instance: a name not defined on
the class raises `AttributeError`. -/
def fileutils_getattr (m : String) : Except String Unit :=
  if m ∈ file_utils_defined_methods then Except.ok () else Except.error "AttributeError"

/-- The first `FileUtils` attribute accesses of
`HierarchyBuilder.build_hierarchy_from_files`. -/
def build_hierarchy_from_files_calls : Except String Unit :=
  match fileutils_getattr "get_markdown_files_from_directories" with
  | Except.ok _ => fileutils_getattr "get_path_components_from_file_path"
  | Except.error e => Except.error e

/-- The `FileUtils` attribute access of `HTMLGenerator._build_layer1_section`
when the rendered item carries a non-empty id. -/
def build_layer1_section_calls : Except String Unit :=
  fileutils_getattr "is_leaf_node"

/-- C10 (code bug): none of the four `FileUtils` methods these components
invoke is defined on the `FileUtils` class of this snapshot, so rendering a
section for an item with a non-empty id and building the markdown hierarchy
both raise `AttributeError` instead of completing. -/
theorem c10_missing_fileutils_methods :
    file_utils_methods_invoked.all (fun m => decide (m ∈ file_utils_defined_methods)) = false
    ∧ file_utils_methods_invoked.filter (fun m => decide (m ∈ file_utils_defined_methods)) = []
    ∧ build_hierarchy_from_files_calls = Except.error "AttributeError"
    ∧ build_layer1_section_calls = Except.error "AttributeError" := by
  refine ⟨by decide, by decide, rfl, rfl⟩

end Graph
